import Mathlib

/-!
Shallow embedding of the rwa_platform Move package
(sources/carbon_nft_manager.move and sources/marketplace.move) together
with proofs of the specified properties.

Modelling conventions:
- Move object identities (UID/ID) and account addresses are modelled as
  natural numbers; the host ledger guarantees freshness of newly created
  identities, which appears as explicit freshness hypotheses.
- Byte strings (Move vector of u8) are lists of naturals.
- A Move abort is modelled as Except.error carrying the u64 abort code;
  the returned error constructor carries no post-state, matching the host
  ledger transaction model in which an aborted transaction commits
  nothing.
- Transfers, deletions and event emissions are recorded in an explicit
  effect trace, in the order the source performs them.
-/

namespace RwaPlatform

/-- Account addresses on the host ledger, modelled as naturals. -/
abbrev Address := Nat

/-- Object identities (Move UID/ID inner values), modelled as naturals. -/
abbrev ObjectId := Nat

/-- Byte strings (Move vector of u8). -/
abbrev Bytes := List Nat

/-! ### sui::table, modelled as an association list

Embedding of the subset of sui::table the package uses.  The host table
aborts when adding an existing key or removing a missing one; callers in
this file perform those checks and return the corresponding host abort
codes. -/

/-- Association-list model of a sui::table::Table. -/
structure MTable (K V : Type) where
  entries : List (K × V)
deriving DecidableEq

/-- Membership check, mirroring sui::table::contains. -/
def MTable.containsKey [DecidableEq K] (t : MTable K V) (k : K) : Bool :=
  t.entries.any (fun e => e.1 = k)

/-- Insertion, mirroring sui::table::add; callers guard against a
pre-existing key (the host aborts in that case). -/
def MTable.add (t : MTable K V) (k : K) (v : V) : MTable K V :=
  ⟨t.entries ++ [(k, v)]⟩

/-- Removal, mirroring sui::table::remove; callers guard against a
missing key (the host aborts in that case). -/
def MTable.remove [DecidableEq K] (t : MTable K V) (k : K) : MTable K V :=
  ⟨t.entries.filter (fun e => decide (e.1 ≠ k))⟩

/-- Empty table, mirroring sui::table::new. -/
def MTable.empty : MTable K V := ⟨[]⟩

/-! ### std::vector operations used by the marketplace -/

/-- Model of std::vector::index_of: first index whose element equals x,
with a found flag (index 0 when absent). -/
def vecIndexOf (xs : List ObjectId) (x : ObjectId) : Bool × Nat :=
  match xs with
  | [] => (false, 0)
  | y :: ys =>
    if y = x then (true, 0)
    else
      let r := vecIndexOf ys x
      (r.1, r.2 + 1)

/-- Model of std::vector::swap_remove i: the element at index i is
replaced by the last element, then the last element is popped. -/
def swapRemove (xs : List ObjectId) (i : Nat) : List ObjectId :=
  match xs.getLast? with
  | none => xs
  | some last => (xs.set i last).dropLast

/-! ### Data model of carbon_nft_manager -/

/-- Represents a unique, verified carbon credit tied to a specific event
(struct CarbonCreditNFT). -/
structure CarbonCreditNFT where
  id : ObjectId
  amount_kg_co2e : Nat
  activity_type : Nat
  verification_id : Bytes
  issuance_timestamp_ms : Nat
deriving DecidableEq

/-- Soulbound token proving retirement of a CarbonCreditNFT
(struct RetirementCertificate). -/
structure RetirementCertificate where
  id : ObjectId
  original_nft_id : ObjectId
  retirer_address : Address
  retired_amount_kg_co2e : Nat
  original_verification_id : Bytes
  retirement_timestamp_ms : Nat
deriving DecidableEq

/-- Capability object granting administrative authority (struct AdminCap).
The opaque wormhole EmitterCap is modelled as Option Unit (only its
is_some / is_none status is observed by the package); the TreasuryCap is
modelled by the total supply of CarbonCreditToken it has minted. -/
structure AdminCap where
  wormhole_state_id : Option ObjectId
  token_bridge_state_id : Option ObjectId
  emitter_cap : Option Unit
  carbon_token_treasury : Nat
deriving DecidableEq

/-- Shared object preventing double-minting (struct VerificationRegistry). -/
structure VerificationRegistry where
  processed_ids : MTable Bytes Bool
deriving DecidableEq

/-- Payload for bridging the value of a retired NFT to an ERC20 on EVM
(struct BridgeToErc20Payload), fields in source order. -/
structure BridgeToErc20Payload where
  sui_nft_id : ObjectId
  amount_kg_co2e : Nat
  activity_type : Nat
  original_verification_id : Bytes
  sui_owner_address : Address
  evm_recipient_address : Bytes
  target_evm_chain_id : Nat
deriving DecidableEq

/-! ### Event structs -/

/-- Emitted when a new CarbonCreditNFT is minted (struct MintNFTEvent). -/
structure MintNFTEvent where
  nft_id : ObjectId
  recipient : Address
  amount_kg_co2e : Nat
  verification_id : Bytes
deriving DecidableEq

/-- Emitted when a CarbonCreditNFT is retired locally (struct RetireNFTEvent). -/
structure RetireNFTEvent where
  retirer : Address
  nft_id : ObjectId
  amount_kg_co2e : Nat
  verification_id : Bytes
deriving DecidableEq

/-- Emitted when a RetirementCertificate is minted (struct CertificateMinted). -/
structure CertificateMinted where
  certificate_id : ObjectId
  retirer_address : Address
  retired_amount_kg_co2e : Nat
  original_verification_id : Bytes
  retirement_timestamp_ms : Nat
deriving DecidableEq

/-- Emitted when an NFT is retired for bridging (struct NFTBridgingInitiated). -/
structure NFTBridgingInitiated where
  sui_nft_id : ObjectId
  sui_owner_address : Address
  amount_kg_co2e : Nat
  target_chain_id : Nat
  evm_recipient_address : Bytes
deriving DecidableEq

/-! ### Marketplace data model -/

/-- Shared index of currently active listings (struct ListingRegistry). -/
structure ListingRegistry where
  active_listings : MTable ObjectId Address
  active_listing_ids : List ObjectId
deriving DecidableEq

/-- An NFT listed for sale; the Listing owns the wrapped NFT
(struct Listing).  The id field is the Listing object's own identity. -/
structure Listing where
  id : ObjectId
  nft_id : ObjectId
  nft : CarbonCreditNFT
  price_mist : Nat
  seller : Address
deriving DecidableEq

/-- Payment coin of type Coin(SUI), identified by its value in MIST. -/
structure CoinSUI where
  value : Nat
deriving DecidableEq

/-- Emitted when an item is listed (struct ListingCreated). -/
structure ListingCreated where
  listing_id : ObjectId
  nft_id : ObjectId
  seller : Address
  price_mist : Nat
deriving DecidableEq

/-- Emitted when an item is purchased (struct ItemSold). -/
structure ItemSold where
  listing_id : ObjectId
  nft_id : ObjectId
  seller : Address
  buyer : Address
  price_mist : Nat
deriving DecidableEq

/-- Emitted when a listing is cancelled (struct ListingCancelled). -/
structure ListingCancelled where
  listing_id : ObjectId
  nft_id : ObjectId
  seller : Address
deriving DecidableEq

/-! ### Effect traces

Observable effects of an entry function, recorded in source order. -/

/-- One observable ledger effect of an entry function. -/
inductive Effect where
  | tableAdd (key : ObjectId)
  | tableRemove (key : ObjectId)
  | vecPushBack (key : ObjectId)
  | vecSwapRemove (key : ObjectId)
  | transferNFT (nft : CarbonCreditNFT) (recipient : Address)
  | transferCoin (c : CoinSUI) (recipient : Address)
  | transferCertificate (cert : RetirementCertificate) (recipient : Address)
  | deleteUID (objId : ObjectId)
  | shareObject (objId : ObjectId)
  | destroyZeroCoin
  | publishMessage (payload : Bytes)
  | emitMint (e : MintNFTEvent)
  | emitRetire (e : RetireNFTEvent)
  | emitCertificate (e : CertificateMinted)
  | emitBridging (e : NFTBridgingInitiated)
  | emitListingCreated (e : ListingCreated)
  | emitItemSold (e : ItemSold)
  | emitListingCancelled (e : ListingCancelled)
deriving DecidableEq

/-! ### Error constants -/

/-- Abort code EInvalidAmount (spec name: InvalidAmount). -/
def EInvalidAmount : Nat := 1

/-- Abort code EVerificationIdAlreadyProcessed (spec name:
DuplicateVerification). -/
def EVerificationIdAlreadyProcessed : Nat := 2

/-- Abort code ECarbonTokenNotRegistered (spec name: AssetNotRegistered). -/
def ECarbonTokenNotRegistered : Nat := 3

/-- Abort code EAdminCapNotInitialized (spec name: BridgeNotInitialized). -/
def EAdminCapNotInitialized : Nat := 5

/-- Abort code EIncorrectPaymentAmount (spec name: IncorrectPaymentAmount). -/
def EIncorrectPaymentAmount : Nat := 101

/-- Abort code ENotSeller (spec name: NotSeller). -/
def ENotSeller : Nat := 102

/-- Abort code raised by the host sui::dynamic_field layer when
sui::table::add is called with an existing key. -/
def EFieldAlreadyExists : Nat := 0

/-- Abort code raised by the host sui::dynamic_field layer when
sui::table::remove is called with a missing key. -/
def EFieldDoesNotExist : Nat := 1

/-! ### carbon_nft_manager entry functions -/

/-- Embedding of carbon_nft_manager::mint_nft.  The ledger-supplied
ingredients of the TxContext (the fresh UID for the new object and the
epoch timestamp) are explicit arguments.  On success, returns the updated
registry, the created NFT and the effect trace. -/
def mint_nft (_admin_cap : AdminCap) (registry : VerificationRegistry)
    (recipient : Address) (amount_kg_co2e : Nat) (activity_type : Nat)
    (verification_id : Bytes) (freshId : ObjectId) (nowMs : Nat) :
    Except Nat (VerificationRegistry × CarbonCreditNFT × List Effect) :=
  if amount_kg_co2e > 0 then
    if registry.processed_ids.containsKey verification_id = true then
      .error EVerificationIdAlreadyProcessed
    else
      let registry' : VerificationRegistry :=
        ⟨registry.processed_ids.add verification_id true⟩
      let nft : CarbonCreditNFT :=
        { id := freshId
          amount_kg_co2e := amount_kg_co2e
          activity_type := activity_type
          verification_id := verification_id
          issuance_timestamp_ms := nowMs }
      .ok (registry', nft,
        [Effect.emitMint
          { nft_id := nft.id
            recipient := recipient
            amount_kg_co2e := amount_kg_co2e
            verification_id := verification_id },
         Effect.transferNFT nft recipient])
  else
    .error EInvalidAmount

/-- Embedding of carbon_nft_manager::retire_nft.  The function has no
abort path: it consumes the NFT, deletes its UID, mints exactly one
RetirementCertificate and transfers it to the sender.  Returns the
certificate and the effect trace in source order. -/
def retire_nft (nft : CarbonCreditNFT) (sender : Address)
    (freshCertId : ObjectId) (nowMs : Nat) :
    RetirementCertificate × List Effect :=
  let certificate : RetirementCertificate :=
    { id := freshCertId
      original_nft_id := nft.id
      retirer_address := sender
      retired_amount_kg_co2e := nft.amount_kg_co2e
      original_verification_id := nft.verification_id
      retirement_timestamp_ms := nowMs }
  (certificate,
   [Effect.emitRetire
      { retirer := sender
        nft_id := nft.id
        amount_kg_co2e := nft.amount_kg_co2e
        verification_id := nft.verification_id },
    Effect.deleteUID nft.id,
    Effect.emitCertificate
      { certificate_id := certificate.id
        retirer_address := sender
        retired_amount_kg_co2e := nft.amount_kg_co2e
        original_verification_id := nft.verification_id
        retirement_timestamp_ms := nowMs },
    Effect.transferCertificate certificate sender])

/-! ### BCS serialization (sui::bcs::to_bytes)

Canonical deterministic binary encoding used system-wide for on-chain
structs: fixed-width unsigned integers are little-endian byte sequences,
variable-length byte vectors are prefixed with their ULEB128-encoded
length, and 32-byte identities/addresses are emitted as their 32 raw
bytes (here derived from the modelled natural via a fixed-width
little-endian convention, which is injective on the modelled values). -/

/-- ULEB128 encoding worker, structurally recursive on a fuel bound
that dominates the number of base-128 digits. -/
def uleb128Aux : Nat → Nat → Bytes
  | 0, n => [n]
  | fuel + 1, n =>
    if n < 128 then [n]
    else (n % 128 + 128) :: uleb128Aux fuel (n / 128)

/-- ULEB128 encoding of a natural number (n itself bounds the digit
count, so the worker never exhausts its fuel). -/
def uleb128 (n : Nat) : Bytes := uleb128Aux n n

/-- Fixed-width little-endian byte encoding of a natural. -/
def natToLEBytes (width n : Nat) : Bytes :=
  match width with
  | 0 => []
  | w + 1 => n % 256 :: natToLEBytes w (n / 256)

/-- BCS encoding of a u8. -/
def bcs_u8 (n : Nat) : Bytes := [n % 256]

/-- BCS encoding of a u16 (little-endian). -/
def bcs_u16 (n : Nat) : Bytes := natToLEBytes 2 n

/-- BCS encoding of a u64 (little-endian). -/
def bcs_u64 (n : Nat) : Bytes := natToLEBytes 8 n

/-- BCS encoding of a 32-byte object identity. -/
def bcs_id (n : ObjectId) : Bytes := natToLEBytes 32 n

/-- BCS encoding of a 32-byte account address. -/
def bcs_address (a : Address) : Bytes := natToLEBytes 32 a

/-- BCS encoding of a byte vector: ULEB128 length prefix followed by the
bytes. -/
def bcs_bytes (b : Bytes) : Bytes := uleb128 b.length ++ b.map (· % 256)

/-- BCS encoding of BridgeToErc20Payload: the concatenation of the BCS
encodings of its fields, in declaration order. -/
def bcsBridgeToErc20Payload (p : BridgeToErc20Payload) : Bytes :=
  bcs_id p.sui_nft_id ++
  bcs_u64 p.amount_kg_co2e ++
  bcs_u8 p.activity_type ++
  bcs_bytes p.original_verification_id ++
  bcs_address p.sui_owner_address ++
  bcs_bytes p.evm_recipient_address ++
  bcs_u16 p.target_evm_chain_id

/-! ### External bridge coordinators (wormhole core bridge, token bridge)

Modelled from the spec: the wormhole core-bridge State and token-bridge
State objects live outside this repository; only the behaviour the
package observes is modelled.  The token-bridge state records whether
the CarbonCreditToken type is recognised as a wrapped asset by
token_bridge::token_registry::is_wrapped; an asset type not registered
at all aborts inside the external coordinator before returning and is
not modelled here.  prepare_transfer and transfer_tokens_with_payload
package the minted amount and the serialized payload into a message;
the dust remainder returned by prepare_transfer is zero for this
zero-decimals currency and is destroyed by coin::destroy_zero. -/

/-- Modelled from the spec: observable state of the external token-bridge
coordinator (token_bridge::state::State), restricted to what the package
reads: whether VerifiedAsset of CarbonCreditToken reports is_wrapped. -/
structure TokenBridgeState where
  carbon_token_is_wrapped : Bool
deriving DecidableEq

/-- Result of a successful retire_and_bridge_nft: the updated AdminCap
(its treasury supply grown by the minted amount), the minted fungible
amount, the constructed payload, its BCS serialization and the effect
trace. -/
structure BridgeOutcome where
  cap' : AdminCap
  minted_amount : Nat
  payload : BridgeToErc20Payload
  payload_bytes : Bytes
  trace : List Effect
deriving DecidableEq

/-- Embedding of carbon_nft_manager::retire_and_bridge_nft.  Consumes the
NFT, mints amount_kg_co2e units of CarbonCreditToken with the AdminCap's
treasury, builds the BridgeToErc20Payload, BCS-serializes it and
publishes it through the wormhole token bridge.  Aborts with
EAdminCapNotInitialized when the AdminCap's emitter capability is unset,
and with ECarbonTokenNotRegistered when the token-bridge coordinator
reports the fungible type as a wrapped (non-native) asset. -/
def retire_and_bridge_nft (nft : CarbonCreditNFT) (admin_cap : AdminCap)
    (tb_state : TokenBridgeState) (evm_recipient_address : Bytes)
    (target_evm_chain_id : Nat) (sender : Address) :
    Except Nat BridgeOutcome :=
  if admin_cap.emitter_cap.isSome then
    let nft_id_value : ObjectId := nft.id
    let minted_amount : Nat := nft.amount_kg_co2e
    if tb_state.carbon_token_is_wrapped then
      .error ECarbonTokenNotRegistered
    else
      let custom_payload : BridgeToErc20Payload :=
        { sui_nft_id := nft_id_value
          amount_kg_co2e := nft.amount_kg_co2e
          activity_type := nft.activity_type
          original_verification_id := nft.verification_id
          sui_owner_address := sender
          evm_recipient_address := evm_recipient_address
          target_evm_chain_id := target_evm_chain_id }
      let serialized_custom_payload := bcsBridgeToErc20Payload custom_payload
      .ok
        { cap' :=
            { admin_cap with
              carbon_token_treasury :=
                admin_cap.carbon_token_treasury + minted_amount }
          minted_amount := minted_amount
          payload := custom_payload
          payload_bytes := serialized_custom_payload
          trace :=
            [Effect.deleteUID nft_id_value,
             Effect.destroyZeroCoin,
             Effect.publishMessage serialized_custom_payload,
             Effect.emitBridging
               { sui_nft_id := nft_id_value
                 sui_owner_address := sender
                 amount_kg_co2e := nft.amount_kg_co2e
                 target_chain_id := target_evm_chain_id
                 evm_recipient_address := evm_recipient_address }] }
  else
    .error EAdminCapNotInitialized

/-! ### marketplace entry functions -/

/-- Embedding of marketplace::list_item.  Wraps the NFT into a new
Listing owned by the registry index, records it in both registry
structures and shares the Listing.  The fresh Listing UID is an explicit
argument; sui::table::add aborts (EFieldAlreadyExists) when the key is
already present, which cannot happen for a genuinely fresh UID. -/
def list_item (registry : ListingRegistry) (nft : CarbonCreditNFT)
    (price_mist : Nat) (sender : Address) (freshListingId : ObjectId) :
    Except Nat (ListingRegistry × Listing × List Effect) :=
  let listing : Listing :=
    { id := freshListingId
      nft_id := nft.id
      nft := nft
      price_mist := price_mist
      seller := sender }
  if registry.active_listings.containsKey listing.id then
    .error EFieldAlreadyExists
  else
    let registry' : ListingRegistry :=
      { active_listings := registry.active_listings.add listing.id sender
        active_listing_ids := registry.active_listing_ids ++ [listing.id] }
    .ok (registry', listing,
      [Effect.tableAdd listing.id,
       Effect.vecPushBack listing.id,
       Effect.emitListingCreated
         { listing_id := listing.id
           nft_id := nft.id
           seller := sender
           price_mist := price_mist },
       Effect.shareObject listing.id])

/-- Embedding of marketplace::buy_item.  Checks the exact payment
amount, removes the listing from both registry structures (table first,
then id vector), transfers the wrapped NFT to the buyer and the payment
coin to the seller, and deletes the Listing UID.  The sui::table::remove
abort (EFieldDoesNotExist) fires when the listing id is not in the
table. -/
def buy_item (registry : ListingRegistry) (listing : Listing)
    (payment : CoinSUI) (buyer : Address) :
    Except Nat (ListingRegistry × List Effect) :=
  let listing_obj_id := listing.id
  if payment.value = listing.price_mist then
    if registry.active_listings.containsKey listing_obj_id then
      let table' := registry.active_listings.remove listing_obj_id
      let found_index := vecIndexOf registry.active_listing_ids listing_obj_id
      let ids' :=
        if found_index.1 then
          swapRemove registry.active_listing_ids found_index.2
        else registry.active_listing_ids
      let registry' : ListingRegistry :=
        { active_listings := table', active_listing_ids := ids' }
      .ok (registry',
        [Effect.tableRemove listing_obj_id] ++
        (if found_index.1 then [Effect.vecSwapRemove listing_obj_id] else []) ++
        [Effect.transferNFT listing.nft buyer,
         Effect.transferCoin payment listing.seller,
         Effect.emitItemSold
           { listing_id := listing_obj_id
             nft_id := listing.nft_id
             seller := listing.seller
             buyer := buyer
             price_mist := listing.price_mist },
         Effect.deleteUID listing_obj_id])
    else
      .error EFieldDoesNotExist
  else
    .error EIncorrectPaymentAmount

/-- Embedding of marketplace::cancel_listing.  Verifies the sender is
the recorded seller, removes the listing from both registry structures,
returns the wrapped NFT to the seller and deletes the Listing UID. -/
def cancel_listing (registry : ListingRegistry) (listing : Listing)
    (sender : Address) :
    Except Nat (ListingRegistry × List Effect) :=
  let listing_obj_id := listing.id
  if sender = listing.seller then
    if registry.active_listings.containsKey listing_obj_id then
      let table' := registry.active_listings.remove listing_obj_id
      let found_index := vecIndexOf registry.active_listing_ids listing_obj_id
      let ids' :=
        if found_index.1 then
          swapRemove registry.active_listing_ids found_index.2
        else registry.active_listing_ids
      let registry' : ListingRegistry :=
        { active_listings := table', active_listing_ids := ids' }
      .ok (registry',
        [Effect.tableRemove listing_obj_id] ++
        (if found_index.1 then [Effect.vecSwapRemove listing_obj_id] else []) ++
        [Effect.transferNFT listing.nft listing.seller,
         Effect.emitListingCancelled
           { listing_id := listing_obj_id
             nft_id := listing.nft_id
             seller := listing.seller },
         Effect.deleteUID listing_obj_id])
    else
      .error EFieldDoesNotExist
  else
    .error ENotSeller

/-- Embedding of marketplace::get_active_listing_ids: a copy of the
registry's id vector. -/
def get_active_listing_ids (registry : ListingRegistry) : List ObjectId :=
  registry.active_listing_ids

/-- Initial ListingRegistry created by marketplace::init. -/
def initialListingRegistry : ListingRegistry :=
  { active_listings := MTable.empty, active_listing_ids := [] }

/-! ### State machines

The host ledger serializes all transactions touching a shared object, so
the evolution of each shared registry is a sequence of entry-function
calls; aborted calls leave the state unchanged. -/

/-- Agreement of the two ListingRegistry structures: the id vector is
duplicate-free and holds exactly the key set of the listing-to-seller
table.  Stated with bounded quantifiers so it is decidable on concrete
registries. -/
def Sync (r : ListingRegistry) : Prop :=
  r.active_listing_ids.Nodup ∧
  (∀ i ∈ r.active_listing_ids, r.active_listings.containsKey i = true) ∧
  (∀ e ∈ r.active_listings.entries, e.1 ∈ r.active_listing_ids)

instance (r : ListingRegistry) : Decidable (Sync r) := by
  unfold Sync; infer_instance

/-- One marketplace entry-function call with its arguments. -/
inductive MarketOp where
  | listOp (nft : CarbonCreditNFT) (price : Nat) (sender : Address)
      (freshId : ObjectId)
  | buyOp (listing : Listing) (payment : CoinSUI) (buyer : Address)
  | cancelOp (listing : Listing) (sender : Address)

/-- Marketplace history state: the shared registry plus the log of
listing identities introduced by committed list_item calls and the log
of identities consumed by committed buy_item / cancel_listing calls. -/
structure MarketState where
  registry : ListingRegistry
  listed : List ObjectId
  removed : List ObjectId

/-- Marketplace state at deployment (marketplace::init). -/
def initialMarketState : MarketState :=
  { registry := initialListingRegistry, listed := [], removed := [] }

/-- Applies one marketplace call; an aborted call leaves the state
unchanged (the host transaction reverts). -/
def marketStep (s : MarketState) (op : MarketOp) : MarketState :=
  match op with
  | .listOp nft price sender freshId =>
    match list_item s.registry nft price sender freshId with
    | .ok (r', _, _) =>
      { registry := r', listed := s.listed ++ [freshId], removed := s.removed }
    | .error _ => s
  | .buyOp listing payment buyer =>
    match buy_item s.registry listing payment buyer with
    | .ok (r', _) =>
      { registry := r', listed := s.listed, removed := s.removed ++ [listing.id] }
    | .error _ => s
  | .cancelOp listing sender =>
    match cancel_listing s.registry listing sender with
    | .ok (r', _) =>
      { registry := r', listed := s.listed, removed := s.removed ++ [listing.id] }
    | .error _ => s

/-- Host-ledger freshness guarantee: the UID handed to a list_item call
was never an earlier listing identity. -/
def opFresh (s : MarketState) : MarketOp → Prop
  | .listOp _ _ _ freshId => freshId ∉ s.listed
  | .buyOp _ _ _ => True
  | .cancelOp _ _ => True

instance (s : MarketState) (op : MarketOp) : Decidable (opFresh s op) := by
  cases op <;> (unfold opFresh; infer_instance)

/-- Marketplace states reachable from deployment by committed calls with
ledger-fresh UIDs. -/
inductive ReachableMarket : MarketState → Prop
  | init : ReachableMarket initialMarketState
  | step (s : MarketState) (op : MarketOp) (h : ReachableMarket s)
      (hfresh : opFresh s op) : ReachableMarket (marketStep s op)

/-- One committed mutation of the shared VerificationRegistry: within
the package only a successful mint_nft call mutates processed_ids (all
other functions read it at most, and aborted calls commit nothing). -/
inductive MintStep : VerificationRegistry → VerificationRegistry → Prop
  | mint (cap : AdminCap) (reg : VerificationRegistry) (recipient : Address)
      (amount activity : Nat) (vid : Bytes) (freshId nowMs : Nat)
      (reg' : VerificationRegistry) (nft : CarbonCreditNFT)
      (tr : List Effect)
      (h : mint_nft cap reg recipient amount activity vid freshId nowMs =
        .ok (reg', nft, tr)) :
      MintStep reg reg'

/-- Effects committed by a retire_and_bridge_nft result: an aborted call
commits nothing (host transaction atomicity). -/
def bridgeCommittedTrace : Except Nat BridgeOutcome → List Effect
  | .ok out => out.trace
  | .error _ => []

/-- Fungible amount left minted by a retire_and_bridge_nft result: an
aborted call leaves no minted amount (host transaction atomicity). -/
def bridgeMintedAmount : Except Nat BridgeOutcome → Nat
  | .ok out => out.minted_amount
  | .error _ => 0

/-- Recognizes a certificate-transfer effect. -/
def Effect.isCertTransfer : Effect → Bool
  | .transferCertificate _ _ => true
  | _ => false

/-- Recognizes a coin-transfer effect. -/
def Effect.isCoinTransfer : Effect → Bool
  | .transferCoin _ _ => true
  | _ => false

/-- Concrete payload used to instantiate the proved bridge properties. -/
def samplePayload : BridgeToErc20Payload := ⟨3, 250, 1, [9], 42, [1, 2], 2⟩

/-- Outcome of bridging the sample NFT with a freshly bound AdminCap. -/
def sampleBridgeOutcome : BridgeOutcome :=
  { cap' := ⟨some 1, some 2, some (), 250⟩
    minted_amount := 250
    payload := samplePayload
    payload_bytes := bcsBridgeToErc20Payload samplePayload
    trace := [Effect.deleteUID 3, Effect.destroyZeroCoin,
              Effect.publishMessage (bcsBridgeToErc20Payload samplePayload),
              Effect.emitBridging ⟨3, 42, 250, 2, [1, 2]⟩] }

/-- Outcome of bridging a second NFT that agrees with the sample NFT on
every payload-relevant field but was issued at a different timestamp,
through an AdminCap with a different treasury history. -/
def sampleBridgeOutcome2 : BridgeOutcome :=
  { cap' := ⟨some 5, some 6, some (), 327⟩
    minted_amount := 250
    payload := samplePayload
    payload_bytes := bcsBridgeToErc20Payload samplePayload
    trace := [Effect.deleteUID 3, Effect.destroyZeroCoin,
              Effect.publishMessage (bcsBridgeToErc20Payload samplePayload),
              Effect.emitBridging ⟨3, 42, 250, 2, [1, 2]⟩] }

/-- Full marketplace invariant: the two registry structures agree, the
id vector holds exactly the identities listed but not yet bought or
cancelled, and every removed identity was once listed. -/
def MarketInv (s : MarketState) : Prop :=
  Sync s.registry ∧
  (∀ i : ObjectId, i ∈ s.registry.active_listing_ids ↔
    (i ∈ s.listed ∧ i ∉ s.removed)) ∧
  (∀ i : ObjectId, i ∈ s.removed → i ∈ s.listed)

/-- Concrete NFT used to instantiate the proved marketplace properties. -/
def sampleNFT : CarbonCreditNFT := ⟨3, 100, 1, [7], 0⟩

/-- Concrete active Listing wrapping the sample NFT at price 500,
listed by seller 42. -/
def sampleListing : Listing := ⟨5, 3, sampleNFT, 500, 42⟩

/-- Concrete ListingRegistry in which the sample Listing is active. -/
def sampleRegistry : ListingRegistry := ⟨⟨[(5, 42)]⟩, [5]⟩

deriving instance DecidableEq for Except

/-! ### Table lemmas -/

/-- Membership in a table after sui::table::add. -/
theorem MTable.containsKey_add {K V : Type} [DecidableEq K]
    (t : MTable K V) (k k' : K) (v : V) :
    (t.add k v).containsKey k' = (t.containsKey k' || decide (k = k')) := by
  simp [MTable.add, MTable.containsKey, List.any_append]

/-- Membership in a table after sui::table::remove. -/
theorem MTable.containsKey_remove {K V : Type} [DecidableEq K]
    (t : MTable K V) (k k' : K) :
    (t.remove k).containsKey k' = (t.containsKey k' && decide (k' ≠ k)) := by
  simp only [MTable.remove, MTable.containsKey, List.any_filter]
  by_cases h : k' = k
  · subst h
    simp
  · have hk : (decide (k' ≠ k)) = true := by simp [h]
    rw [hk, Bool.and_true]
    congr 1
    funext e
    by_cases he : e.1 = k'
    · simp [he, h]
    · simp [he]

/-! ### mint_nft characterization -/

/-- Characterization of a successful carbon_nft_manager::mint_nft call:
it succeeds exactly when the quantity is positive and the verification
id is unprocessed, and then the registry gains that id, the created NFT
carries the given fields, and the trace emits the mint event and
transfers the NFT to the recipient. -/
theorem mint_nft_ok_iff (cap : AdminCap) (reg : VerificationRegistry)
    (recipient : Address) (amount activity : Nat) (vid : Bytes)
    (freshId nowMs : Nat) (reg' : VerificationRegistry)
    (nft : CarbonCreditNFT) (tr : List Effect) :
    mint_nft cap reg recipient amount activity vid freshId nowMs =
        .ok (reg', nft, tr) ↔
      (0 < amount ∧ reg.processed_ids.containsKey vid = false ∧
       reg' = ⟨reg.processed_ids.add vid true⟩ ∧
       nft = ⟨freshId, amount, activity, vid, nowMs⟩ ∧
       tr = [Effect.emitMint ⟨freshId, recipient, amount, vid⟩,
             Effect.transferNFT ⟨freshId, amount, activity, vid, nowMs⟩
               recipient]) := by
  unfold mint_nft
  split_ifs with h1 h2
  · simp [h2]
  · simp only [Bool.not_eq_true] at h2
    simp [h1, h2, eq_comm]
  · simp only [Nat.not_lt, Nat.le_zero] at h1
    simp [h1]

/-- Failed mint: duplicate verification id with a positive quantity. -/
theorem mint_nft_duplicate (cap : AdminCap) (reg : VerificationRegistry)
    (recipient : Address) (amount activity : Nat) (vid : Bytes)
    (freshId nowMs : Nat)
    (hc : reg.processed_ids.containsKey vid = true) (hamt : 0 < amount) :
    mint_nft cap reg recipient amount activity vid freshId nowMs =
      .error EVerificationIdAlreadyProcessed := by
  simp [mint_nft, hamt, hc]

/-- A committed mint step never removes a processed id. -/
theorem mintStep_mono (a b : VerificationRegistry) (hstep : MintStep a b)
    (s : Bytes) (hs : a.processed_ids.containsKey s = true) :
    b.processed_ids.containsKey s = true := by
  rcases hstep with ⟨cap, reg, recipient, amount, activity, vid, fid, ts,
    reg', nft, tr, h⟩
  obtain ⟨-, -, hr, -, -⟩ := (mint_nft_ok_iff _ _ _ _ _ _ _ _ _ _ _).mp h
  subst hr
  simp [MTable.containsKey_add, hs]

/-- Processed ids persist along any sequence of committed mint steps. -/
theorem mintReach_mono (a b : VerificationRegistry)
    (h : Relation.ReflTransGen MintStep a b) (s : Bytes)
    (hs : a.processed_ids.containsKey s = true) :
    b.processed_ids.containsKey s = true := by
  induction h with
  | refl => exact hs
  | tail _ hstep ih => exact mintStep_mono _ _ hstep _ ih

/-! ### Claim C1 -/

/-- C1 counterexample: the claim as stated is false.  After a successful
mint with reference r = [7], a later mint_nft call with the same
reference but zero quantity aborts with EInvalidAmount (the quantity
check precedes the duplicate check), not with
EVerificationIdAlreadyProcessed. -/
theorem claim_C1_counterexample :
    mint_nft ⟨none, none, none, 0⟩ ⟨⟨[]⟩⟩ 10 100 1 [7] 1 0 =
      .ok (⟨⟨[([7], true)]⟩⟩, ⟨1, 100, 1, [7], 0⟩,
        [Effect.emitMint ⟨1, 10, 100, [7]⟩,
         Effect.transferNFT ⟨1, 100, 1, [7], 0⟩ 10]) ∧
    mint_nft ⟨none, none, none, 0⟩ ⟨⟨[([7], true)]⟩⟩ 11 0 2 [7] 2 5 =
      .error EInvalidAmount ∧
    mint_nft ⟨none, none, none, 0⟩ ⟨⟨[([7], true)]⟩⟩ 11 0 2 [7] 2 5 ≠
      .error EVerificationIdAlreadyProcessed := by
  refine ⟨by decide, by decide, by decide⟩

/-- C1 (amended): once a mint with reference r has succeeded, the
registry permanently maps r to processed along every sequence of
committed registry mutations (the mapping only grows: no operation
removes an entry), and no later mint_nft call with reference r ever
succeeds; such a call fails with EVerificationIdAlreadyProcessed
whenever its quantity is positive (a zero-quantity call fails earlier
with EInvalidAmount). -/
theorem claim_C1 (cap : AdminCap) (reg reg' : VerificationRegistry)
    (recipient : Address) (amount activity : Nat) (r : Bytes)
    (freshId nowMs : Nat) (nft : CarbonCreditNFT) (tr : List Effect)
    (hmint : mint_nft cap reg recipient amount activity r freshId nowMs =
      .ok (reg', nft, tr)) :
    (∀ reg'', Relation.ReflTransGen MintStep reg' reg'' →
      reg''.processed_ids.containsKey r = true ∧
      (∀ cap2 rec2 amt2 act2 fid2 ts2 out,
        mint_nft cap2 reg'' rec2 amt2 act2 r fid2 ts2 ≠ .ok out) ∧
      (∀ cap2 rec2 amt2 act2 fid2 ts2, 0 < amt2 →
        mint_nft cap2 reg'' rec2 amt2 act2 r fid2 ts2 =
          .error EVerificationIdAlreadyProcessed)) ∧
    (∀ a b, MintStep a b → ∀ s, a.processed_ids.containsKey s = true →
      b.processed_ids.containsKey s = true) := by
  obtain ⟨-, -, hr, -, -⟩ := (mint_nft_ok_iff _ _ _ _ _ _ _ _ _ _ _).mp hmint
  have hmem : reg'.processed_ids.containsKey r = true := by
    subst hr
    simp [MTable.containsKey_add]
  refine ⟨?_, fun a b hstep s hs => mintStep_mono a b hstep s hs⟩
  intro reg'' hreach
  have hmem'' : reg''.processed_ids.containsKey r = true :=
    mintReach_mono _ _ hreach _ hmem
  refine ⟨hmem'', ?_, ?_⟩
  · intro cap2 rec2 amt2 act2 fid2 ts2 out hok
    rcases out with ⟨reg3, nft3, tr3⟩
    obtain ⟨-, hfalse, -, -, -⟩ :=
      (mint_nft_ok_iff _ _ _ _ _ _ _ _ _ _ _).mp hok
    rw [hmem''] at hfalse
    exact absurd hfalse (by simp)
  · intro cap2 rec2 amt2 act2 fid2 ts2 hamt
    exact mint_nft_duplicate _ _ _ _ _ _ _ _ hmem'' hamt

/-- C1 witness: concrete instance of the amended claim, at a registry
reached by a successful mint of reference [7]. -/
theorem claim_C1_witness :
    mint_nft ⟨none, none, none, 0⟩ ⟨⟨[([7], true)]⟩⟩ 11 50 2 [7] 2 5 =
      .error EVerificationIdAlreadyProcessed := by
  have h := claim_C1 ⟨none, none, none, 0⟩ ⟨⟨[]⟩⟩ ⟨⟨[([7], true)]⟩⟩ 10 100 1 [7]
    1 0 ⟨1, 100, 1, [7], 0⟩
    [Effect.emitMint ⟨1, 10, 100, [7]⟩,
     Effect.transferNFT ⟨1, 100, 1, [7], 0⟩ 10] (by decide)
  exact (h.1 ⟨⟨[([7], true)]⟩⟩ Relation.ReflTransGen.refl).2.2
    ⟨none, none, none, 0⟩ 11 50 2 2 5 (by decide)

/-! ### Claims C3 and C7 -/

/-- C3: a successful retire_nft destroys the token (its UID is deleted;
identities are never reused, so there is no restore path) and creates
exactly one RetirementCertificate whose retired quantity, verification
reference and original-token-id equal those of the destroyed token, and
which is transferred to the calling account. -/
theorem claim_C3 (nft : CarbonCreditNFT) (sender : Address)
    (freshCertId nowMs : Nat) :
    (retire_nft nft sender freshCertId nowMs).1.retired_amount_kg_co2e =
        nft.amount_kg_co2e ∧
    (retire_nft nft sender freshCertId nowMs).1.original_verification_id =
        nft.verification_id ∧
    (retire_nft nft sender freshCertId nowMs).1.original_nft_id = nft.id ∧
    (retire_nft nft sender freshCertId nowMs).1.retirer_address = sender ∧
    Effect.deleteUID nft.id ∈ (retire_nft nft sender freshCertId nowMs).2 ∧
    (retire_nft nft sender freshCertId nowMs).2.filter Effect.isCertTransfer =
      [Effect.transferCertificate (retire_nft nft sender freshCertId nowMs).1
        sender] := by
  simp [retire_nft, List.filter, Effect.isCertTransfer]

/-- C7: mint_nft called with quantity zero fails with EInvalidAmount
regardless of the verification reference (the quantity check precedes
the duplicate check), and every CarbonCreditNFT a successful mint_nft
call creates (the only creation path in the package) has positive
quantity. -/
theorem claim_C7 (cap : AdminCap) (reg : VerificationRegistry)
    (recipient : Address) (activity : Nat) (vid : Bytes)
    (freshId nowMs : Nat) :
    (mint_nft cap reg recipient 0 activity vid freshId nowMs =
      .error EInvalidAmount) ∧
    (∀ amount reg' nft tr,
      mint_nft cap reg recipient amount activity vid freshId nowMs =
        .ok (reg', nft, tr) →
      0 < nft.amount_kg_co2e) := by
  constructor
  · simp [mint_nft]
  · intro amount reg' nft tr h
    obtain ⟨h1, -, -, hn, -⟩ := (mint_nft_ok_iff _ _ _ _ _ _ _ _ _ _ _).mp h
    subst hn
    exact h1

/-- C7 witness: a concrete zero-quantity mint aborts with EInvalidAmount
even though the reference is already processed, and a concrete
successful mint yields a positive-quantity NFT. -/
theorem claim_C7_witness :
    (mint_nft ⟨none, none, none, 0⟩ ⟨⟨[([7], true)]⟩⟩ 10 0 1 [7] 1 0 =
      .error EInvalidAmount) ∧
    0 < (⟨1, 100, 1, [7], 0⟩ : CarbonCreditNFT).amount_kg_co2e := by
  refine ⟨(claim_C7 ⟨none, none, none, 0⟩ ⟨⟨[([7], true)]⟩⟩ 10 1 [7] 1 0).1, ?_⟩
  exact (claim_C7 ⟨none, none, none, 0⟩ ⟨⟨[]⟩⟩ 10 1 [7] 1 0).2 100
    ⟨⟨[([7], true)]⟩⟩ ⟨1, 100, 1, [7], 0⟩
    [Effect.emitMint ⟨1, 10, 100, [7]⟩,
     Effect.transferNFT ⟨1, 100, 1, [7], 0⟩ 10] (by decide)

/-! ### Bridge claims C4, C6, C9 -/

/-- Characterization of a successful retire_and_bridge_nft call. -/
theorem retire_and_bridge_nft_ok_iff (nft : CarbonCreditNFT)
    (cap : AdminCap) (tb : TokenBridgeState) (er : Bytes) (chain : Nat)
    (sender : Address) (out : BridgeOutcome) :
    retire_and_bridge_nft nft cap tb er chain sender = .ok out ↔
      (cap.emitter_cap.isSome = true ∧ tb.carbon_token_is_wrapped = false ∧
       out =
        { cap' :=
            { cap with
              carbon_token_treasury :=
                cap.carbon_token_treasury + nft.amount_kg_co2e }
          minted_amount := nft.amount_kg_co2e
          payload := ⟨nft.id, nft.amount_kg_co2e, nft.activity_type,
            nft.verification_id, sender, er, chain⟩
          payload_bytes := bcsBridgeToErc20Payload
            ⟨nft.id, nft.amount_kg_co2e, nft.activity_type,
             nft.verification_id, sender, er, chain⟩
          trace :=
            [Effect.deleteUID nft.id,
             Effect.destroyZeroCoin,
             Effect.publishMessage (bcsBridgeToErc20Payload
               ⟨nft.id, nft.amount_kg_co2e, nft.activity_type,
                nft.verification_id, sender, er, chain⟩),
             Effect.emitBridging
               ⟨nft.id, sender, nft.amount_kg_co2e, chain, er⟩] }) := by
  unfold retire_and_bridge_nft
  split_ifs with h1 h2
  · simp [h1, h2]
  · simp only [Bool.not_eq_true] at h2
    simp [h1, h2, eq_comm]
  · simp only [Bool.not_eq_true] at h1
    simp [h1]

/-- C4: the fungible CarbonCreditToken amount minted by a successful
retire_and_bridge_nft equals the consumed token's quantity (1:1, the
currency is created with zero decimals), and the original token's UID is
deleted in the same transaction. -/
theorem claim_C4 (nft : CarbonCreditNFT) (cap : AdminCap)
    (tb : TokenBridgeState) (er : Bytes) (chain : Nat) (sender : Address)
    (out : BridgeOutcome)
    (h : retire_and_bridge_nft nft cap tb er chain sender = .ok out) :
    out.minted_amount = nft.amount_kg_co2e ∧
    out.cap'.carbon_token_treasury =
      cap.carbon_token_treasury + nft.amount_kg_co2e ∧
    Effect.deleteUID nft.id ∈ out.trace := by
  obtain ⟨-, -, hout⟩ :=
    (retire_and_bridge_nft_ok_iff _ _ _ _ _ _ _).mp h
  subst hout
  refine ⟨rfl, rfl, ?_⟩
  simp

/-- C4 witness: bridging a concrete 250-unit token mints 250 fungible
units and deletes the token's UID. -/
theorem claim_C4_witness :
    sampleBridgeOutcome.minted_amount = 250 ∧
    sampleBridgeOutcome.cap'.carbon_token_treasury = 0 + 250 ∧
    Effect.deleteUID 3 ∈ sampleBridgeOutcome.trace :=
  claim_C4 ⟨3, 250, 1, [9], 0⟩ ⟨some 1, some 2, some (), 0⟩ ⟨false⟩
    [1, 2] 2 42 sampleBridgeOutcome (by decide)

/-- C6: retire_and_bridge_nft aborts with EAdminCapNotInitialized when
the AdminCap's bridge fields are unbound (the emitter capability is
checked; setup_bridge_admin binds all bridge fields together, exactly
once), and with ECarbonTokenNotRegistered when the token-transport
coordinator does not recognise the fungible type as a native
(non-wrapped) asset; every abort commits nothing, so the token is not
destroyed and no fungible amount remains minted. -/
theorem claim_C6 (nft : CarbonCreditNFT) (cap : AdminCap)
    (tb : TokenBridgeState) (er : Bytes) (chain : Nat) (sender : Address) :
    (cap.emitter_cap = none →
      retire_and_bridge_nft nft cap tb er chain sender =
        .error EAdminCapNotInitialized) ∧
    (cap.emitter_cap.isSome = true → tb.carbon_token_is_wrapped = true →
      retire_and_bridge_nft nft cap tb er chain sender =
        .error ECarbonTokenNotRegistered) ∧
    (∀ e, retire_and_bridge_nft nft cap tb er chain sender = .error e →
      bridgeCommittedTrace (retire_and_bridge_nft nft cap tb er chain sender)
        = [] ∧
      bridgeMintedAmount (retire_and_bridge_nft nft cap tb er chain sender)
        = 0) := by
  refine ⟨?_, ?_, ?_⟩
  · intro hnone
    simp [retire_and_bridge_nft, hnone]
  · intro hsome hwrapped
    simp [retire_and_bridge_nft, hsome, hwrapped]
  · intro e he
    rw [he]
    exact ⟨rfl, rfl⟩

/-- C6 witness: concrete aborts for an unbound AdminCap and for a
wrapped asset registration, each committing no effects. -/
theorem claim_C6_witness :
    (retire_and_bridge_nft ⟨3, 250, 1, [9], 0⟩ ⟨none, none, none, 0⟩ ⟨false⟩
      [1, 2] 2 42 = .error EAdminCapNotInitialized) ∧
    (retire_and_bridge_nft ⟨3, 250, 1, [9], 0⟩ ⟨some 1, some 2, some (), 0⟩
      ⟨true⟩ [1, 2] 2 42 = .error ECarbonTokenNotRegistered) ∧
    bridgeCommittedTrace (retire_and_bridge_nft ⟨3, 250, 1, [9], 0⟩
      ⟨none, none, none, 0⟩ ⟨false⟩ [1, 2] 2 42) = [] := by
  have h1 := (claim_C6 ⟨3, 250, 1, [9], 0⟩ ⟨none, none, none, 0⟩ ⟨false⟩
    [1, 2] 2 42).1 rfl
  have h2 := (claim_C6 ⟨3, 250, 1, [9], 0⟩ ⟨some 1, some 2, some (), 0⟩
    ⟨true⟩ [1, 2] 2 42).2.1 rfl rfl
  have h3 := ((claim_C6 ⟨3, 250, 1, [9], 0⟩ ⟨none, none, none, 0⟩ ⟨false⟩
    [1, 2] 2 42).2.2 EAdminCapNotInitialized h1).1
  exact ⟨h1, h2, h3⟩

/-- C9: the cross-chain payload published by a successful
retire_and_bridge_nft is the BCS serialization of BridgeToErc20Payload
with fields, in order: original token identity, quantity, category code,
verification reference, caller's local address, target recipient bytes,
target chain id; consequently two successful calls agreeing on all those
inputs (whatever their timestamps, treasuries or coordinator states)
produce byte-identical payloads. -/
theorem claim_C9 (nft : CarbonCreditNFT) (cap : AdminCap)
    (tb : TokenBridgeState) (er : Bytes) (chain : Nat) (sender : Address)
    (out : BridgeOutcome)
    (h : retire_and_bridge_nft nft cap tb er chain sender = .ok out) :
    out.payload = ⟨nft.id, nft.amount_kg_co2e, nft.activity_type,
      nft.verification_id, sender, er, chain⟩ ∧
    out.payload_bytes = bcsBridgeToErc20Payload out.payload ∧
    Effect.publishMessage out.payload_bytes ∈ out.trace ∧
    (∀ nft2 cap2 tb2 sender2 out2,
      retire_and_bridge_nft nft2 cap2 tb2 er chain sender2 = .ok out2 →
      nft2.id = nft.id → nft2.amount_kg_co2e = nft.amount_kg_co2e →
      nft2.activity_type = nft.activity_type →
      nft2.verification_id = nft.verification_id → sender2 = sender →
      out2.payload_bytes = out.payload_bytes) := by
  obtain ⟨-, -, hout⟩ :=
    (retire_and_bridge_nft_ok_iff _ _ _ _ _ _ _).mp h
  subst hout
  refine ⟨rfl, rfl, by simp, ?_⟩
  intro nft2 cap2 tb2 sender2 out2 h2 hid hamt hact hvid hsender
  obtain ⟨-, -, hout2⟩ :=
    (retire_and_bridge_nft_ok_iff _ _ _ _ _ _ _).mp h2
  subst hout2
  simp only [hid, hamt, hact, hvid, hsender]

/-- C9 witness: bridging the sample token and a second token that agrees
on all payload inputs but differs in timestamp and treasury produces
byte-identical payloads, equal to the BCS serialization of the payload
struct. -/
theorem claim_C9_witness :
    sampleBridgeOutcome.payload = samplePayload ∧
    sampleBridgeOutcome.payload_bytes =
      bcsBridgeToErc20Payload sampleBridgeOutcome.payload ∧
    Effect.publishMessage sampleBridgeOutcome.payload_bytes ∈
      sampleBridgeOutcome.trace ∧
    sampleBridgeOutcome2.payload_bytes = sampleBridgeOutcome.payload_bytes := by
  have h := claim_C9 ⟨3, 250, 1, [9], 0⟩ ⟨some 1, some 2, some (), 0⟩ ⟨false⟩
    [1, 2] 2 42 sampleBridgeOutcome (by decide)
  refine ⟨h.1, h.2.1, h.2.2.1, ?_⟩
  exact h.2.2.2 ⟨3, 250, 1, [9], 999⟩ ⟨some 5, some 6, some (), 77⟩ ⟨false⟩ 42
    sampleBridgeOutcome2 (by decide) rfl rfl rfl rfl rfl

/-! ### Vector removal lemmas -/

/-- vecIndexOf finds the first occurrence of a present element; the
returned index decomposes the list. -/
theorem vecIndexOf_decomp (xs : List ObjectId) (x : ObjectId)
    (hmem : x ∈ xs) :
    (vecIndexOf xs x).1 = true ∧
    ∃ A B, xs = A ++ x :: B ∧ (vecIndexOf xs x).2 = A.length := by
  induction xs with
  | nil => cases hmem
  | cons y ys ih =>
    by_cases hy : y = x
    · subst hy
      exact ⟨by simp [vecIndexOf], [], ys, rfl, by simp [vecIndexOf]⟩
    · have hx : x ∈ ys := by
        rcases List.mem_cons.mp hmem with h | h
        · exact absurd h.symm hy
        · exact h
      obtain ⟨hf, A, B, hAB, hidx⟩ := ih hx
      refine ⟨?_, y :: A, B, ?_, ?_⟩
      · simp [vecIndexOf, hy, hf]
      · simp [hAB]
      · simp [vecIndexOf, hy, hidx]

/-- Setting the element just after a prefix. -/
theorem set_length_append (A : List ObjectId) (a v : ObjectId)
    (B : List ObjectId) :
    (A ++ a :: B).set A.length v = A ++ v :: B := by
  induction A with
  | nil => rfl
  | cons hd tl ih => simp [List.set, ih]

/-- A cons is a permutation of the append of the singleton. -/
theorem cons_perm_append_singleton (l : ObjectId) (B : List ObjectId) :
    List.Perm (l :: B) (B ++ [l]) := by
  have h := (@List.perm_middle ObjectId l B []).symm
  simpa using h

/-- swap_remove at the index of a decomposed occurrence removes exactly
that occurrence, up to permutation. -/
theorem swapRemove_append_cons (A : List ObjectId) (a : ObjectId)
    (B : List ObjectId) :
    List.Perm (swapRemove (A ++ a :: B) A.length) (A ++ B) := by
  rcases List.eq_nil_or_concat B with hB | ⟨B', l, hB⟩
  · subst hB
    have h1 : (A ++ [a]).getLast? = some a := List.getLast?_concat A
    have h2 : (A ++ [a]).set A.length a = A ++ [a] :=
      set_length_append A a a []
    simp only [swapRemove, h1, h2, List.dropLast_concat]
    simp
  · rw [List.concat_eq_append] at hB
    subst hB
    have hshape : A ++ a :: (B' ++ [l]) = (A ++ a :: B') ++ [l] := by simp
    have h1 : (A ++ a :: (B' ++ [l])).getLast? = some l := by
      rw [hshape]
      exact List.getLast?_concat _
    have h2 : (A ++ a :: (B' ++ [l])).set A.length l = A ++ l :: (B' ++ [l]) :=
      set_length_append A a l (B' ++ [l])
    have h3 : (A ++ l :: (B' ++ [l])).dropLast = A ++ l :: B' := by
      have hshape2 : A ++ l :: (B' ++ [l]) = (A ++ l :: B') ++ [l] := by simp
      rw [hshape2, List.dropLast_concat]
    simp only [swapRemove, h1, h2, h3]
    exact List.Perm.append_left A (cons_perm_append_singleton l B')

/-- Removing a present element of a duplicate-free vector via
vecIndexOf and swapRemove yields a duplicate-free vector holding exactly
the other elements. -/
theorem swapRemove_mem_nodup (xs : List ObjectId) (x : ObjectId)
    (hmem : x ∈ xs) (hnd : xs.Nodup) :
    (swapRemove xs (vecIndexOf xs x).2).Nodup ∧
    ∀ y, y ∈ swapRemove xs (vecIndexOf xs x).2 ↔ (y ∈ xs ∧ y ≠ x) := by
  obtain ⟨hf, A, B, hAB, hidx⟩ := vecIndexOf_decomp xs x hmem
  have hperm : List.Perm (swapRemove xs (vecIndexOf xs x).2) (A ++ B) := by
    rw [hidx]
    rw [hAB]
    exact swapRemove_append_cons A x B
  have hperm2 : List.Perm xs (x :: (A ++ B)) := by
    rw [hAB]
    exact List.perm_middle
  have hnd2 : (x :: (A ++ B)).Nodup := hperm2.nodup_iff.mp hnd
  have hxout : x ∉ A ++ B := (List.nodup_cons.mp hnd2).1
  have hndAB : (A ++ B).Nodup := (List.nodup_cons.mp hnd2).2
  refine ⟨hperm.nodup_iff.mpr hndAB, ?_⟩
  intro y
  rw [hperm.mem_iff, hperm2.mem_iff, List.mem_cons]
  constructor
  · intro hy
    refine ⟨Or.inr hy, ?_⟩
    rintro rfl
    exact hxout hy
  · rintro ⟨hy | hy, hne⟩
    · exact absurd hy hne
    · exact hy

/-! ### Registry synchronization lemmas -/

/-- Under Sync, vector membership coincides with table membership. -/
theorem sync_mem_iff (r : ListingRegistry) (hsync : Sync r) (i : ObjectId) :
    i ∈ r.active_listing_ids ↔ r.active_listings.containsKey i = true := by
  obtain ⟨hnd, h1, h2⟩ := hsync
  constructor
  · exact h1 i
  · intro hc
    obtain ⟨e, he, hei⟩ := List.any_eq_true.mp hc
    have hei' : e.1 = i := of_decide_eq_true hei
    rw [← hei']
    exact h2 e he

/-- Removing an active listing from both registry structures preserves
Sync and removes exactly that identity from the vector. -/
theorem registryRemove_sync (reg : ListingRegistry) (x : ObjectId)
    (hsync : Sync reg)
    (hactive : reg.active_listings.containsKey x = true) :
    (vecIndexOf reg.active_listing_ids x).1 = true ∧
    Sync ⟨reg.active_listings.remove x,
          swapRemove reg.active_listing_ids
            (vecIndexOf reg.active_listing_ids x).2⟩ ∧
    (∀ i, i ∈ swapRemove reg.active_listing_ids
            (vecIndexOf reg.active_listing_ids x).2 ↔
       (i ∈ reg.active_listing_ids ∧ i ≠ x)) := by
  have hmem : x ∈ reg.active_listing_ids := (sync_mem_iff reg hsync x).mpr hactive
  obtain ⟨hf, -, -⟩ := vecIndexOf_decomp _ _ hmem
  obtain ⟨hnd', hmemiff⟩ := swapRemove_mem_nodup _ _ hmem hsync.1
  refine ⟨hf, ⟨hnd', ?_, ?_⟩, hmemiff⟩
  · intro i hi
    obtain ⟨hix, hne⟩ := (hmemiff i).mp hi
    rw [MTable.containsKey_remove]
    simp [(sync_mem_iff reg hsync i).mp hix, hne]
  · intro e he
    have hmf := List.mem_filter.mp he
    have he1 : e.1 ≠ x := by simpa using hmf.2
    have he2 : e.1 ∈ reg.active_listing_ids := hsync.2.2 e hmf.1
    exact (hmemiff e.1).mpr ⟨he2, he1⟩

/-- Successful buy_item: exact result on an active listing with exact
payment. -/
theorem buy_item_ok (reg : ListingRegistry) (l : Listing)
    (payment : CoinSUI) (buyer : Address) (hsync : Sync reg)
    (hactive : reg.active_listings.containsKey l.id = true)
    (hpay : payment.value = l.price_mist) :
    buy_item reg l payment buyer =
      .ok (⟨reg.active_listings.remove l.id,
            swapRemove reg.active_listing_ids
              (vecIndexOf reg.active_listing_ids l.id).2⟩,
        [Effect.tableRemove l.id, Effect.vecSwapRemove l.id,
         Effect.transferNFT l.nft buyer,
         Effect.transferCoin payment l.seller,
         Effect.emitItemSold ⟨l.id, l.nft_id, l.seller, buyer, l.price_mist⟩,
         Effect.deleteUID l.id]) := by
  obtain ⟨hf, -, -⟩ := registryRemove_sync reg l.id hsync hactive
  simp [buy_item, hpay, hactive, hf]

/-- Successful cancel_listing: exact result on an active listing when
called by the seller. -/
theorem cancel_listing_ok (reg : ListingRegistry) (l : Listing)
    (hsync : Sync reg)
    (hactive : reg.active_listings.containsKey l.id = true) :
    cancel_listing reg l l.seller =
      .ok (⟨reg.active_listings.remove l.id,
            swapRemove reg.active_listing_ids
              (vecIndexOf reg.active_listing_ids l.id).2⟩,
        [Effect.tableRemove l.id, Effect.vecSwapRemove l.id,
         Effect.transferNFT l.nft l.seller,
         Effect.emitListingCancelled ⟨l.id, l.nft_id, l.seller⟩,
         Effect.deleteUID l.id]) := by
  obtain ⟨hf, -, -⟩ := registryRemove_sync reg l.id hsync hactive
  simp [cancel_listing, hactive, hf]

/-! ### Claims C2, C8, C10 -/

/-- C2: on an active Listing, buy_item aborts with
EIncorrectPaymentAmount whenever the payment coin's value differs from
the price (under- or over-payment), and with exact payment it succeeds:
the trace removes the listing identity from the table and the id vector
before transferring the wrapped NFT to the buyer and the payment to the
original seller, and ends by deleting the Listing UID; afterwards the
identity is in neither registry structure. -/
theorem claim_C2 (reg : ListingRegistry) (l : Listing) (payment : CoinSUI)
    (buyer : Address) (hsync : Sync reg)
    (hactive : reg.active_listings.containsKey l.id = true) :
    (payment.value ≠ l.price_mist →
      buy_item reg l payment buyer = .error EIncorrectPaymentAmount) ∧
    (payment.value = l.price_mist →
      buy_item reg l payment buyer =
        .ok (⟨reg.active_listings.remove l.id,
              swapRemove reg.active_listing_ids
                (vecIndexOf reg.active_listing_ids l.id).2⟩,
          [Effect.tableRemove l.id, Effect.vecSwapRemove l.id,
           Effect.transferNFT l.nft buyer,
           Effect.transferCoin payment l.seller,
           Effect.emitItemSold ⟨l.id, l.nft_id, l.seller, buyer, l.price_mist⟩,
           Effect.deleteUID l.id]) ∧
      (reg.active_listings.remove l.id).containsKey l.id = false ∧
      l.id ∉ swapRemove reg.active_listing_ids
               (vecIndexOf reg.active_listing_ids l.id).2) := by
  constructor
  · intro hne
    simp [buy_item, hne]
  · intro hpay
    obtain ⟨-, -, hmemiff⟩ := registryRemove_sync reg l.id hsync hactive
    refine ⟨buy_item_ok reg l payment buyer hsync hactive hpay, ?_, ?_⟩
    · rw [MTable.containsKey_remove]
      simp
    · intro hmem
      exact ((hmemiff l.id).mp hmem).2 rfl

/-- C2 witness: with the sample active listing priced at 500,
payment 499 aborts with EIncorrectPaymentAmount and payment 500
succeeds, with the removal effects preceding the transfers. -/
theorem claim_C2_witness :
    (buy_item sampleRegistry sampleListing ⟨499⟩ 99 =
      .error EIncorrectPaymentAmount) ∧
    (buy_item sampleRegistry sampleListing ⟨500⟩ 99 =
      .ok (⟨sampleRegistry.active_listings.remove sampleListing.id,
            swapRemove sampleRegistry.active_listing_ids
              (vecIndexOf sampleRegistry.active_listing_ids
                sampleListing.id).2⟩,
        [Effect.tableRemove sampleListing.id,
         Effect.vecSwapRemove sampleListing.id,
         Effect.transferNFT sampleListing.nft 99,
         Effect.transferCoin ⟨500⟩ sampleListing.seller,
         Effect.emitItemSold ⟨sampleListing.id, sampleListing.nft_id,
           sampleListing.seller, 99, sampleListing.price_mist⟩,
         Effect.deleteUID sampleListing.id]) ∧
      (sampleRegistry.active_listings.remove
        sampleListing.id).containsKey sampleListing.id = false ∧
      sampleListing.id ∉ swapRemove sampleRegistry.active_listing_ids
        (vecIndexOf sampleRegistry.active_listing_ids sampleListing.id).2) := by
  refine ⟨(claim_C2 sampleRegistry sampleListing ⟨499⟩ 99 (by decide)
    (by decide)).1 (by decide), ?_⟩
  exact (claim_C2 sampleRegistry sampleListing ⟨500⟩ 99 (by decide)
    (by decide)).2 rfl

/-- C8: cancel_listing aborts with ENotSeller exactly when the caller is
not the recorded seller; called by the seller on an active listing it
succeeds, returning the wrapped NFT to the seller, transferring no
payment coin, removing the identity from both registry structures and
deleting the Listing UID. -/
theorem claim_C8 (reg : ListingRegistry) (l : Listing) (sender : Address)
    (hsync : Sync reg)
    (hactive : reg.active_listings.containsKey l.id = true) :
    (sender ≠ l.seller →
      cancel_listing reg l sender = .error ENotSeller) ∧
    (sender = l.seller →
      cancel_listing reg l sender =
        .ok (⟨reg.active_listings.remove l.id,
              swapRemove reg.active_listing_ids
                (vecIndexOf reg.active_listing_ids l.id).2⟩,
          [Effect.tableRemove l.id, Effect.vecSwapRemove l.id,
           Effect.transferNFT l.nft l.seller,
           Effect.emitListingCancelled ⟨l.id, l.nft_id, l.seller⟩,
           Effect.deleteUID l.id]) ∧
      ([Effect.tableRemove l.id, Effect.vecSwapRemove l.id,
        Effect.transferNFT l.nft l.seller,
        Effect.emitListingCancelled ⟨l.id, l.nft_id, l.seller⟩,
        Effect.deleteUID l.id].filter Effect.isCoinTransfer = []) ∧
      (reg.active_listings.remove l.id).containsKey l.id = false ∧
      l.id ∉ swapRemove reg.active_listing_ids
               (vecIndexOf reg.active_listing_ids l.id).2) := by
  constructor
  · intro hne
    simp [cancel_listing, hne]
  · rintro rfl
    obtain ⟨-, -, hmemiff⟩ := registryRemove_sync reg l.id hsync hactive
    refine ⟨cancel_listing_ok reg l hsync hactive, ?_, ?_, ?_⟩
    · simp [List.filter, Effect.isCoinTransfer]
    · rw [MTable.containsKey_remove]
      simp
    · intro hmem
      exact ((hmemiff l.id).mp hmem).2 rfl

/-- C8 witness: a non-seller cancel of the sample listing aborts with
ENotSeller, and the seller's cancel succeeds with no coin transfer. -/
theorem claim_C8_witness :
    (cancel_listing sampleRegistry sampleListing 99 = .error ENotSeller) ∧
    (cancel_listing sampleRegistry sampleListing 42 =
      .ok (⟨sampleRegistry.active_listings.remove sampleListing.id,
            swapRemove sampleRegistry.active_listing_ids
              (vecIndexOf sampleRegistry.active_listing_ids
                sampleListing.id).2⟩,
        [Effect.tableRemove sampleListing.id,
         Effect.vecSwapRemove sampleListing.id,
         Effect.transferNFT sampleListing.nft sampleListing.seller,
         Effect.emitListingCancelled ⟨sampleListing.id,
           sampleListing.nft_id, sampleListing.seller⟩,
         Effect.deleteUID sampleListing.id])) := by
  refine ⟨(claim_C8 sampleRegistry sampleListing 99 (by decide)
    (by decide)).1 (by decide), ?_⟩
  exact ((claim_C8 sampleRegistry sampleListing 42 (by decide)
    (by decide)).2 (by decide)).1

/-- C10: buy_item imposes no buyer-differs-from-seller restriction; a
purchase sent by the seller with exact payment succeeds, transferring
both the wrapped NFT and the payment coin to the seller and removing the
listing from both registry structures. -/
theorem claim_C10 (reg : ListingRegistry) (l : Listing) (payment : CoinSUI)
    (hsync : Sync reg)
    (hactive : reg.active_listings.containsKey l.id = true)
    (hpay : payment.value = l.price_mist) :
    buy_item reg l payment l.seller =
      .ok (⟨reg.active_listings.remove l.id,
            swapRemove reg.active_listing_ids
              (vecIndexOf reg.active_listing_ids l.id).2⟩,
        [Effect.tableRemove l.id, Effect.vecSwapRemove l.id,
         Effect.transferNFT l.nft l.seller,
         Effect.transferCoin payment l.seller,
         Effect.emitItemSold ⟨l.id, l.nft_id, l.seller, l.seller,
           l.price_mist⟩,
         Effect.deleteUID l.id]) ∧
    (reg.active_listings.remove l.id).containsKey l.id = false ∧
    l.id ∉ swapRemove reg.active_listing_ids
             (vecIndexOf reg.active_listing_ids l.id).2 := by
  obtain ⟨-, -, hmemiff⟩ := registryRemove_sync reg l.id hsync hactive
  refine ⟨buy_item_ok reg l payment l.seller hsync hactive hpay, ?_, ?_⟩
  · rw [MTable.containsKey_remove]
    simp
  · intro hmem
    exact ((hmemiff l.id).mp hmem).2 rfl

/-- C10 witness: the sample seller self-purchases the sample listing
with exact payment; the purchase succeeds and both assets go to the
seller. -/
theorem claim_C10_witness :
    buy_item sampleRegistry sampleListing ⟨500⟩ sampleListing.seller =
      .ok (⟨sampleRegistry.active_listings.remove sampleListing.id,
            swapRemove sampleRegistry.active_listing_ids
              (vecIndexOf sampleRegistry.active_listing_ids
                sampleListing.id).2⟩,
        [Effect.tableRemove sampleListing.id,
         Effect.vecSwapRemove sampleListing.id,
         Effect.transferNFT sampleListing.nft sampleListing.seller,
         Effect.transferCoin ⟨500⟩ sampleListing.seller,
         Effect.emitItemSold ⟨sampleListing.id, sampleListing.nft_id,
           sampleListing.seller, sampleListing.seller,
           sampleListing.price_mist⟩,
         Effect.deleteUID sampleListing.id]) ∧
    (sampleRegistry.active_listings.remove
      sampleListing.id).containsKey sampleListing.id = false ∧
    sampleListing.id ∉ swapRemove sampleRegistry.active_listing_ids
      (vecIndexOf sampleRegistry.active_listing_ids sampleListing.id).2 :=
  claim_C10 sampleRegistry sampleListing ⟨500⟩ (by decide) (by decide) rfl

/-! ### Claim C5: index integrity through every operation -/

/-- Successful list_item: exact result when the fresh id is unused. -/
theorem list_item_ok (reg : ListingRegistry) (nft : CarbonCreditNFT)
    (price : Nat) (sender : Address) (freshId : ObjectId)
    (hfree : reg.active_listings.containsKey freshId = false) :
    list_item reg nft price sender freshId =
      .ok (⟨reg.active_listings.add freshId sender,
            reg.active_listing_ids ++ [freshId]⟩,
        ⟨freshId, nft.id, nft, price, sender⟩,
        [Effect.tableAdd freshId, Effect.vecPushBack freshId,
         Effect.emitListingCreated ⟨freshId, nft.id, sender, price⟩,
         Effect.shareObject freshId]) := by
  simp [list_item, hfree]

/-- Registering a genuinely fresh listing preserves the marketplace
invariant. -/
theorem addStep_inv (s : MarketState) (lid : ObjectId) (seller : Address)
    (hinv : MarketInv s) (hfree : lid ∉ s.listed) :
    MarketInv ⟨⟨s.registry.active_listings.add lid seller,
        s.registry.active_listing_ids ++ [lid]⟩,
      s.listed ++ [lid], s.removed⟩ := by
  obtain ⟨hsync, hiff, hsub⟩ := hinv
  have hnotmem : lid ∉ s.registry.active_listing_ids := fun hmem =>
    hfree ((hiff lid).mp hmem).1
  have hnotrem : lid ∉ s.removed := fun h => hfree (hsub lid h)
  refine ⟨⟨?_, ?_, ?_⟩, ?_, ?_⟩
  · rw [List.nodup_append]
    exact ⟨hsync.1, List.nodup_singleton _, fun a ha hb => by
      rw [List.mem_singleton] at hb
      subst hb
      exact hnotmem ha⟩
  · intro i hi
    rw [MTable.containsKey_add]
    rcases List.mem_append.mp hi with h | h
    · rw [hsync.2.1 i h]
      simp
    · rw [List.mem_singleton] at h
      subst h
      simp
  · intro e he
    simp only [MTable.add] at he
    rcases List.mem_append.mp he with h | h
    · exact List.mem_append.mpr (Or.inl (hsync.2.2 e h))
    · rw [List.mem_singleton] at h
      subst h
      exact List.mem_append.mpr (Or.inr (by simp))
  · intro i
    show i ∈ s.registry.active_listing_ids ++ [lid] ↔
      (i ∈ s.listed ++ [lid] ∧ i ∉ s.removed)
    rw [List.mem_append, List.mem_append, List.mem_singleton, hiff i]
    constructor
    · rintro (⟨hl, hr⟩ | rfl)
      · exact ⟨Or.inl hl, hr⟩
      · exact ⟨Or.inr rfl, hnotrem⟩
    · rintro ⟨hl | rfl, hr⟩
      · exact Or.inl ⟨hl, hr⟩
      · exact Or.inr rfl
  · intro i hi
    exact List.mem_append.mpr (Or.inl (hsub i hi))

/-- Removing an active listing (the registry mutation common to buy_item
and cancel_listing) preserves the marketplace invariant. -/
theorem removeStep_inv (s : MarketState) (lid : ObjectId)
    (hinv : MarketInv s)
    (hact : s.registry.active_listings.containsKey lid = true) :
    MarketInv ⟨⟨s.registry.active_listings.remove lid,
        swapRemove s.registry.active_listing_ids
          (vecIndexOf s.registry.active_listing_ids lid).2⟩,
      s.listed, s.removed ++ [lid]⟩ := by
  obtain ⟨hsync, hiff, hsub⟩ := hinv
  obtain ⟨-, hsync', hmemiff⟩ := registryRemove_sync s.registry lid hsync hact
  have hlid_listed : lid ∈ s.listed :=
    ((hiff lid).mp ((sync_mem_iff s.registry hsync lid).mpr hact)).1
  refine ⟨hsync', ?_, ?_⟩
  · intro i
    rw [hmemiff i, hiff i, List.mem_append, List.mem_singleton]
    constructor
    · rintro ⟨⟨hl, hr⟩, hne⟩
      refine ⟨hl, fun h => ?_⟩
      rcases h with h | h
      · exact hr h
      · exact hne h
    · rintro ⟨hl, hr⟩
      exact ⟨⟨hl, fun h => hr (Or.inl h)⟩, fun h => hr (Or.inr h)⟩
  · intro i hi
    rcases List.mem_append.mp hi with h | h
    · exact hsub i h
    · rw [List.mem_singleton] at h
      subst h
      exact hlid_listed

/-- Every committed marketplace call with a ledger-fresh UID preserves
the marketplace invariant; aborted calls change nothing. -/
theorem marketStep_inv (s : MarketState) (op : MarketOp)
    (hinv : MarketInv s) (hfresh : opFresh s op) :
    MarketInv (marketStep s op) := by
  cases op with
  | listOp nft price sender freshId =>
    have hfree : freshId ∉ s.listed := hfresh
    have hc : s.registry.active_listings.containsKey freshId = false := by
      rw [Bool.eq_false_iff]
      intro hc
      exact hfree ((hinv.2.1 freshId).mp
        ((sync_mem_iff s.registry hinv.1 freshId).mpr hc)).1
    have heq := list_item_ok s.registry nft price sender freshId hc
    simp only [marketStep, heq]
    exact addStep_inv s freshId sender hinv hfree
  | buyOp listing payment buyer =>
    by_cases hpay : payment.value = listing.price_mist
    · by_cases hact :
        s.registry.active_listings.containsKey listing.id = true
      · have heq := buy_item_ok s.registry listing payment buyer hinv.1
          hact hpay
        simp only [marketStep, heq]
        exact removeStep_inv s listing.id hinv hact
      · have heq : buy_item s.registry listing payment buyer =
            .error EFieldDoesNotExist := by
          simp [buy_item, hpay, hact]
        simp only [marketStep, heq]
        exact hinv
    · have heq : buy_item s.registry listing payment buyer =
          .error EIncorrectPaymentAmount := by
        simp [buy_item, hpay]
      simp only [marketStep, heq]
      exact hinv
  | cancelOp listing sender =>
    by_cases hsell : sender = listing.seller
    · subst hsell
      by_cases hact :
        s.registry.active_listings.containsKey listing.id = true
      · have heq := cancel_listing_ok s.registry listing hinv.1 hact
        simp only [marketStep, heq]
        exact removeStep_inv s listing.id hinv hact
      · have heq : cancel_listing s.registry listing listing.seller =
            .error EFieldDoesNotExist := by
          simp [cancel_listing, hact]
        simp only [marketStep, heq]
        exact hinv
    · have heq : cancel_listing s.registry listing sender =
          .error ENotSeller := by
        simp [cancel_listing, hsell]
      simp only [marketStep, heq]
      exact hinv

/-- Every reachable marketplace state satisfies the invariant. -/
theorem reachableMarket_inv (s : MarketState) (h : ReachableMarket s) :
    MarketInv s := by
  induction h with
  | init =>
    refine ⟨⟨List.nodup_nil, ?_, ?_⟩, ?_, ?_⟩ <;>
      simp [initialMarketState, initialListingRegistry, MTable.empty]
  | step s op hr hfresh ih => exact marketStep_inv s op ih hfresh

/-- C5: at every reachable ListingRegistry state, get_active_listing_ids
returns, without duplicates, exactly the identities for which a
list_item has committed but no buy_item or cancel_listing has yet
committed, and this set coincides with the key set of the
listing-to-seller table. -/
theorem claim_C5 (s : MarketState) (h : ReachableMarket s) :
    (get_active_listing_ids s.registry).Nodup ∧
    (∀ i, i ∈ get_active_listing_ids s.registry ↔
      s.registry.active_listings.containsKey i = true) ∧
    (∀ i, i ∈ get_active_listing_ids s.registry ↔
      (i ∈ s.listed ∧ i ∉ s.removed)) := by
  have hinv := reachableMarket_inv s h
  exact ⟨hinv.1.1, fun i => sync_mem_iff s.registry hinv.1 i, hinv.2.1⟩

/-- C5 witness: the invariant instantiated at the concrete reachable
state obtained by listing the sample NFT in the fresh registry. -/
theorem claim_C5_witness :
    (get_active_listing_ids (marketStep initialMarketState
      (MarketOp.listOp sampleNFT 500 42 5)).registry).Nodup ∧
    (∀ i, i ∈ get_active_listing_ids (marketStep initialMarketState
        (MarketOp.listOp sampleNFT 500 42 5)).registry ↔
      (marketStep initialMarketState
        (MarketOp.listOp sampleNFT 500 42 5)).registry.active_listings.containsKey
          i = true) ∧
    (∀ i, i ∈ get_active_listing_ids (marketStep initialMarketState
        (MarketOp.listOp sampleNFT 500 42 5)).registry ↔
      (i ∈ (marketStep initialMarketState
          (MarketOp.listOp sampleNFT 500 42 5)).listed ∧
       i ∉ (marketStep initialMarketState
          (MarketOp.listOp sampleNFT 500 42 5)).removed)) :=
  claim_C5 _ (ReachableMarket.step initialMarketState
    (MarketOp.listOp sampleNFT 500 42 5) ReachableMarket.init (by decide))

end RwaPlatform
